import Mathlib

/-!
Verification development for the `raftmod` repository: a shallow embedding of
its routing table (`server_lookup.go`), membership-tag parsing (`server.go`,
`raft_server_serf.go`), encrypted snapshot store and stream cipher
(`stream_encrypter.go`, the encrypted snapshot store file), and the outbound
client connection pool (`raft_client_pool.go`), together with theorems that
settle the specification claims against this embedding.

Go byte slices are embedded as `List Nat` (each element a byte value),
Go maps as functions into `Option`, Go `(value, error)` returns as pairs with
an `Option String` error component or as `Except String`, and Go strings as
Lean `String`.  Error message texts are paraphrased (the Go originals contain
quote characters); only their presence/absence is load-bearing.
-/

namespace Raftmod

/-! ## Byte-level helpers -/

/-- Pointwise XOR of two byte lists (models `XORKeyStream` applied to a
buffer: the transform is `dst[i] = src[i] XOR keystream[i]`). -/
def xorBytes (a b : List Nat) : List Nat :=
  List.zipWith (fun x y => x ^^^ y) a b

/-- Big-endian interpretation of a byte list as a natural number. -/
def bytesToNat (l : List Nat) : Nat :=
  l.foldl (fun acc b => acc * 256 + b) 0

/-- Big-endian encoding of a natural number into exactly `len` bytes. -/
def natToBytes (len n : Nat) : List Nat :=
  (List.range len).map (fun i => n / 256 ^ (len - 1 - i) % 256)

theorem xorBytes_length (a b : List Nat) :
    (xorBytes a b).length = min a.length b.length := by
  simp [xorBytes]

theorem natToBytes_length (len n : Nat) : (natToBytes len n).length = len := by
  simp [natToBytes]

theorem xorBytes_xorBytes_cancel :
    ∀ (p ks : List Nat), p.length = ks.length → xorBytes (xorBytes p ks) ks = p
  | [], [], _ => rfl
  | [], _ :: _, h => by simp at h
  | _ :: _, [], h => by simp at h
  | x :: p, k :: ks, h => by
      have hlen : p.length = ks.length := by
        simpa using h
      simp only [xorBytes, List.zipWith_cons_cons]
      refine congrArg₂ (· :: ·) ?_ (xorBytes_xorBytes_cancel p ks hlen)
      rw [Nat.xor_assoc, Nat.xor_self, Nat.xor_zero]

/-! ## Routing table (`implServerLookup`, src/server_lookup.go)

`raftapi.Server` descriptors are embedded as a structure carrying the fields
`ParseServerTags` fills in; pointer identity of distinct descriptors with
equal fields is immaterial to the claims (fields such as `name` already
distinguish the descriptors used below).  The two Go maps become functions
into `Option Server`; the `sync.RWMutex` disappears because every map
operation runs entirely under the lock, so the observable behaviour is that
of the sequential data structure. -/

structure Server where
  name : String
  sid : String
  port : Int
  joinPort : Int
  raftPort : Int
  rpcPort : Int
  ip : String
  build : String
  version : String
  status : String
deriving DecidableEq

/-- Models `server.Addr.String()` for a `*net.TCPAddr` with an IPv4 textual
IP: `JoinHostPort(ip, itoa(port))`, i.e. `ip ++ ":" ++ port`. -/
def addrString (s : Server) : String :=
  s.ip ++ ":" ++ toString s.port

/-- The two indices of `implServerLookup`. -/
structure ServerLookupState where
  addressToServer : String → Option Server
  idToServer : String → Option Server

/-- Models the `ServerLookup()` constructor: both maps empty. -/
def emptyLookup : ServerLookupState :=
  { addressToServer := fun _ => none, idToServer := fun _ => none }

/-- Models `implServerLookup.AddServer`: store under `Addr.String()` in the
address index and under `ID` in the id index. -/
def addServer (st : ServerLookupState) (s : Server) : ServerLookupState :=
  { addressToServer := fun a => if a = addrString s then some s else st.addressToServer a
    idToServer := fun i => if i = s.sid then some s else st.idToServer i }

/-- Models `implServerLookup.RemoveServer`: delete both keys. -/
def removeServer (st : ServerLookupState) (s : Server) : ServerLookupState :=
  { addressToServer := fun a => if a = addrString s then none else st.addressToServer a
    idToServer := fun i => if i = s.sid then none else st.idToServer i }

/-- Models `implServerLookup.ServerAddr`: Go returns the pair
`(raft.ServerAddress, error)`; the error component is `none` on success and
carries a message naming the id when the id is absent. -/
def serverAddr (st : ServerLookupState) (id : String) : String × Option String :=
  match st.idToServer id with
  | none => ("", some ("could not find address for server id " ++ id))
  | some svr => (addrString svr, none)

/-- Models `implServerLookup.Server`: a nil pointer result becomes `none`. -/
def serverByAddr (st : ServerLookupState) (addr : String) : Option Server :=
  st.addressToServer addr

/-- One `AddServer`/`RemoveServer` call. -/
inductive LookupOp
  | add (s : Server)
  | remove (s : Server)
deriving DecidableEq

/-- The descriptor an operation carries. -/
def LookupOp.server : LookupOp → Server
  | .add s => s
  | .remove s => s

/-- Apply one operation. -/
def applyOp (st : ServerLookupState) (op : LookupOp) : ServerLookupState :=
  match op with
  | .add s => addServer st s
  | .remove s => removeServer st s

/-- Apply a call sequence left to right. -/
def applyOps (ops : List LookupOp) (st : ServerLookupState) : ServerLookupState :=
  ops.foldl applyOp st

/-- The descriptors mentioned by a call sequence. -/
def serversOf (ops : List LookupOp) : List Server :=
  ops.map LookupOp.server

/-- Keying discipline: any two descriptors in `S` agree on ids exactly when
they agree on addresses (each ID denotes one address and vice versa). -/
def Consistent (S : List Server) : Prop :=
  ∀ s ∈ S, ∀ s' ∈ S, (s.sid = s'.sid ↔ addrString s = addrString s')

instance (S : List Server) : Decidable (Consistent S) := by
  unfold Consistent; infer_instance

/-- Invariant tying the two indices together over a universe `S` of
descriptors that may have been inserted. -/
structure LookupOk (S : List Server) (st : ServerLookupState) : Prop where
  addrDom : ∀ a s, st.addressToServer a = some s → a = addrString s ∧ s ∈ S
  idDom : ∀ i s, st.idToServer i = some s → i = s.sid ∧ s ∈ S
  agree : ∀ s, st.addressToServer (addrString s) = some s ↔ st.idToServer s.sid = some s

theorem lookupOk_empty (S : List Server) : LookupOk S emptyLookup := by
  refine ⟨?_, ?_, ?_⟩
  · intro a s h; simp [emptyLookup] at h
  · intro i s h; simp [emptyLookup] at h
  · intro s; simp [emptyLookup]

theorem lookupOk_applyOp (S : List Server) (hS : Consistent S)
    (st : ServerLookupState) (op : LookupOp) (hop : op.server ∈ S)
    (h : LookupOk S st) : LookupOk S (applyOp st op) := by
  cases op with
  | add u =>
    refine ⟨?_, ?_, ?_⟩
    · intro a s hs
      simp only [applyOp, addServer] at hs
      by_cases ha : a = addrString u
      · simp [ha] at hs; exact hs ▸ ⟨ha, hop⟩
      · simp [ha] at hs; exact h.addrDom a s hs
    · intro i s hs
      simp only [applyOp, addServer] at hs
      by_cases hi : i = u.sid
      · simp [hi] at hs; exact hs ▸ ⟨hi, hop⟩
      · simp [hi] at hs; exact h.idDom i s hs
    · intro s
      simp only [applyOp, addServer]
      by_cases ha : addrString s = addrString u <;> by_cases hi : s.sid = u.sid
      · rw [if_pos ha, if_pos hi]
      · rw [if_pos ha, if_neg hi]
        constructor
        · intro hu
          exact absurd (congrArg Server.sid (Option.some.inj hu).symm) hi
        · intro hs
          obtain ⟨-, hsS⟩ := h.idDom _ _ hs
          exact absurd ((hS s hsS u hop).mpr ha) hi
      · rw [if_neg ha, if_pos hi]
        constructor
        · intro hs
          obtain ⟨-, hsS⟩ := h.addrDom _ _ hs
          exact absurd ((hS s hsS u hop).mp hi) ha
        · intro hu
          exact absurd (congrArg addrString (Option.some.inj hu).symm) ha
      · rw [if_neg ha, if_neg hi]
        exact h.agree s
  | remove u =>
    refine ⟨?_, ?_, ?_⟩
    · intro a s hs
      simp only [applyOp, removeServer] at hs
      by_cases ha : a = addrString u
      · simp [ha] at hs
      · simp [ha] at hs; exact h.addrDom a s hs
    · intro i s hs
      simp only [applyOp, removeServer] at hs
      by_cases hi : i = u.sid
      · simp [hi] at hs
      · simp [hi] at hs; exact h.idDom i s hs
    · intro s
      simp only [applyOp, removeServer]
      by_cases ha : addrString s = addrString u <;> by_cases hi : s.sid = u.sid
      · rw [if_pos ha, if_pos hi]
      · rw [if_pos ha, if_neg hi]
        constructor
        · intro hu; exact absurd hu (by simp)
        · intro hs
          obtain ⟨-, hsS⟩ := h.idDom _ _ hs
          exact absurd ((hS s hsS u hop).mpr ha) hi
      · rw [if_neg ha, if_pos hi]
        constructor
        · intro hs
          obtain ⟨-, hsS⟩ := h.addrDom _ _ hs
          exact absurd ((hS s hsS u hop).mp hi) ha
        · intro hu; exact absurd hu (by simp)
      · rw [if_neg ha, if_neg hi]
        exact h.agree s

theorem lookupOk_applyOps (S : List Server) (hS : Consistent S) :
    ∀ (ops : List LookupOp) (st : ServerLookupState),
      (∀ op ∈ ops, op.server ∈ S) → LookupOk S st → LookupOk S (applyOps ops st)
  | [], _, _, h => h
  | op :: ops, st, hmem, h => by
      have hstep := lookupOk_applyOp S hS st op (hmem op (List.mem_cons_self op ops)) h
      have := lookupOk_applyOps S hS ops (applyOp st op)
        (fun o ho => hmem o (List.mem_cons_of_mem op ho)) hstep
      simpa [applyOps] using this

/-! ## Membership tag parsing (`ParseServerTags`, src/server.go) and the
serf join handler (`implRaftServer.nodeJoinLAN`, src/raft_server_serf.go)

A serf member is embedded with the fields `ParseServerTags` consumes; its
tag map becomes an association list with Go map semantics (a missing key
reads as the empty string). -/

def emptyString : String := ""

def roleKey : String := "role"

def idKey : String := "id"

def portKey : String := "port"

def raftPortKey : String := "raft-port"

def grpcPortKey : String := "grpc-port"

def buildKey : String := "build"

def versionKey : String := "version"

structure Member where
  name : String
  ip : String
  port : Nat
  tags : List (String × String)
  status : String
deriving DecidableEq

/-- Models the Go map read `m.Tags[k]`: the zero value (empty string) when
the key is absent. -/
def tagOf (m : Member) (k : String) : String :=
  (m.tags.lookup k).getD emptyString

/-- Digit-sequence parser underlying `atoi`. -/
def parseDigits (l : List Char) : Option Nat :=
  if l = [] then none
  else
    l.foldl
      (fun acc c =>
        match acc with
        | none => none
        | some n => if c.isDigit then some (n * 10 + (c.toNat - 48)) else none)
      (some 0)

/-- Models `strconv.Atoi`: optional sign followed by a nonempty digit string;
anything else is a parse error (`none`).  The Go 64-bit range check is not
modelled; no claim involves out-of-range numerals. -/
def atoi (s : String) : Option Int :=
  match s.data with
  | [] => none
  | c :: rest =>
    if c = '+' then (parseDigits rest).map (fun n => (n : Int))
    else if c = '-' then (parseDigits rest).map (fun n => -(n : Int))
    else (parseDigits (c :: rest)).map (fun n => (n : Int))

/-- Models `ParseServerTags` (src/server.go): reject a member whose role tag
differs from the expected role, then parse the `port`, `raft-port` and
`grpc-port` tags in that order, failing on the first tag that does not
parse; on success build the descriptor.  Error texts are paraphrased. -/
def parseServerTags (m : Member) (role : String) : Except String Server :=
  if tagOf m roleKey ≠ role then
    .error ("joining role " ++ tagOf m roleKey ++ " whereas expected role " ++ role)
  else
    match atoi (tagOf m portKey) with
    | none => .error ("parsing port tag " ++ tagOf m portKey)
    | some port =>
      match atoi (tagOf m raftPortKey) with
      | none => .error ("parsing raft-port tag " ++ tagOf m raftPortKey)
      | some raftPort =>
        match atoi (tagOf m grpcPortKey) with
        | none => .error ("parsing grpc-port tag " ++ tagOf m grpcPortKey)
        | some grpcPort =>
          .ok { name := m.name
                sid := tagOf m idKey
                port := port
                joinPort := (m.port : Int)
                raftPort := raftPort
                rpcPort := grpcPort
                ip := m.ip
                build := tagOf m buildKey
                version := tagOf m versionKey
                status := m.status }

/-- One member of the fold inside `nodeJoinLAN`: parse the tags; on error
log and skip (state unchanged), on success `AddServer`. -/
def joinStep (role : String) (acc : ServerLookupState) (m : Member) : ServerLookupState :=
  match parseServerTags m role with
  | .error _ => acc
  | .ok s => addServer acc s

/-- Models `implRaftServer.nodeJoinLAN`: process every member of the join
event in order (the expected role is `t.Application.Name()`, here a
parameter). -/
def nodeJoinLAN (st : ServerLookupState) (members : List Member) (role : String) :
    ServerLookupState :=
  members.foldl (joinStep role) st

theorem joinStep_error {m : Member} {role : String} {e : String}
    (he : parseServerTags m role = .error e) (acc : ServerLookupState) :
    joinStep role acc m = acc := by
  simp [joinStep, he]

theorem parseServerTags_role_mismatch {m : Member} {role : String}
    (h : tagOf m roleKey ≠ role) :
    parseServerTags m role =
      .error ("joining role " ++ tagOf m roleKey ++ " whereas expected role " ++ role) := by
  simp [parseServerTags, h]

/-! ## Concrete descriptors and members used by counterexamples and
witnesses -/

/-- Two distinct descriptors sharing the ID but not the address. -/
def cexS1 : Server :=
  { name := "s1", sid := "A", port := 7000, joinPort := 0, raftPort := 0
    rpcPort := 0, ip := "X", build := "", version := "", status := "" }

def cexS2 : Server :=
  { name := "s2", sid := "A", port := 7000, joinPort := 0, raftPort := 0
    rpcPort := 0, ip := "Y", build := "", version := "", status := "" }

/-- A descriptor keyed consistently with `cexS1` (fresh ID, fresh address). -/
def cexS3 : Server :=
  { name := "s3", sid := "B", port := 7000, joinPort := 0, raftPort := 0
    rpcPort := 0, ip := "Y", build := "", version := "", status := "" }

def cexOps : List LookupOp := [.add cexS1, .add cexS2]

def wOps : List LookupOp := [.add cexS1, .add cexS3, .remove cexS1]

def c4Id : String := "n1"

def c6Role : String := "testapp"

def c6Id : String := "n1"

def c6Addr : String := "10.0.0.1:7000"

/-- Tag set of the claim: note `rpc-port`, which `ParseServerTags` never
reads (it reads `grpc-port`). -/
def c6Tags : List (String × String) :=
  [(roleKey, c6Role), (idKey, c6Id), (portKey, "7000"),
   (raftPortKey, "8000"), ("rpc-port", "9000")]

/-- The same tag set with the key the code actually reads. -/
def c6TagsFixed : List (String × String) :=
  [(roleKey, c6Role), (idKey, c6Id), (portKey, "7000"),
   (raftPortKey, "8000"), (grpcPortKey, "9000")]

def c6Member : Member :=
  { name := "node1", ip := "10.0.0.1", port := 7946, tags := c6Tags, status := "alive" }

def c6MemberFixed : Member :=
  { name := "node1", ip := "10.0.0.1", port := 7946, tags := c6TagsFixed, status := "alive" }

/-- The descriptor `ParseServerTags` builds from `c6TagsFixed`. -/
def c6Server : Server :=
  { name := "node1", sid := "n1", port := 7000, joinPort := 7946, raftPort := 8000
    rpcPort := 9000, ip := "10.0.0.1", build := "", version := "", status := "alive" }

def c9OtherRole : String := "otherapp"

/-- A member whose role tag does not match the expected role. -/
def c9Bad : Member :=
  { name := "node2", ip := "10.0.0.2", port := 7946
    tags := [(roleKey, c9OtherRole), (idKey, "n2"), (portKey, "7000"),
             (raftPortKey, "8000"), (grpcPortKey, "9000")]
    status := "alive" }

/-! ## Claim C3 -/

/-- C3 counterexample: starting from the empty table, the call sequence
`AddServer cexS1; AddServer cexS2` (same ID `A`, different addresses) leaves
`cexS1` reachable via the address index but not via the id index, so the
claimed invariant fails for this finite sequence. -/
theorem addRemove_consistency_counterexample :
    ¬ (∀ s : Server,
        (applyOps cexOps emptyLookup).addressToServer (addrString s) = some s ↔
        (applyOps cexOps emptyLookup).idToServer s.sid = some s) := by
  intro h
  have h1 : (applyOps cexOps emptyLookup).idToServer cexS1.sid = some cexS1 :=
    (h cexS1).mp (by decide)
  have h2 : (applyOps cexOps emptyLookup).idToServer cexS1.sid = some cexS2 := by decide
  exact absurd (h1.symm.trans h2) (by decide)

/-- C3 amended: if all descriptors mentioned by the call sequence are keyed
consistently (two of them share an ID exactly when they share an address),
then after any finite sequence of `AddServer`/`RemoveServer` calls from the
empty table a descriptor is reachable via the address index iff it is
reachable via the id index under its ID. -/
theorem addRemove_keeps_indices_consistent (ops : List LookupOp)
    (hS : Consistent (serversOf ops)) :
    ∀ s : Server,
      (applyOps ops emptyLookup).addressToServer (addrString s) = some s ↔
      (applyOps ops emptyLookup).idToServer s.sid = some s :=
  (lookupOk_applyOps (serversOf ops) hS ops emptyLookup
    (fun _ hop => List.mem_map_of_mem LookupOp.server hop)
    (lookupOk_empty _)).agree

/-- Witness: the amended C3 theorem applied to the concrete consistent
sequence `wOps`. -/
theorem addRemove_keeps_indices_consistent_witness :
    Consistent (serversOf wOps) ∧
    (∀ s : Server,
      (applyOps wOps emptyLookup).addressToServer (addrString s) = some s ↔
      (applyOps wOps emptyLookup).idToServer s.sid = some s) :=
  ⟨by decide, addRemove_keeps_indices_consistent wOps (by decide)⟩

/-! ## Claim C4 -/

/-- C4 counterexample: `ServerAddr` on an absent ID returns a non-nil error
(second component `some …`), so the routing table does raise an error for
unknown IDs, contrary to the claim that no operation ever returns one. -/
theorem serverAddr_absent_error_counterexample :
    serverAddr emptyLookup c4Id =
      ( "", some ("could not find address for server id " ++ c4Id)) := rfl

/-- C4 amended: for every ID absent from the table, `ServerAddr` returns the
empty address together with an error naming the id — the error value is the
not-found indication — while `Server` (lookup by address) returns `none`
without any error for unknown addresses. -/
theorem serverAddr_absent (st : ServerLookupState) (id : String)
    (h : st.idToServer id = none) :
    serverAddr st id = ( "", some ("could not find address for server id " ++ id)) ∧
    ∀ addr, st.addressToServer addr = none → serverByAddr st addr = none := by
  constructor
  · simp [serverAddr, h]
  · intro addr ha
    simpa [serverByAddr] using ha

/-- Witness: the amended C4 theorem at the empty table and a concrete id. -/
theorem serverAddr_absent_witness :
    emptyLookup.idToServer c4Id = none ∧
    (serverAddr emptyLookup c4Id =
        ( "", some ("could not find address for server id " ++ c4Id)) ∧
      ∀ addr, emptyLookup.addressToServer addr = none →
        serverByAddr emptyLookup addr = none) :=
  ⟨rfl, serverAddr_absent emptyLookup c4Id rfl⟩

/-! ## Claim C6 -/

/-- C6 counterexample: a Join event for a member with matching role and the
tag set of the claim (`rpc-port`, no `grpc-port`) adds nothing: parsing
fails on the missing `grpc-port` tag, the member is skipped, and neither the
id `n1` nor the computed address resolves afterwards. -/
theorem joinEvent_claimTags_counterexample :
    (nodeJoinLAN emptyLookup [c6Member] c6Role).idToServer c6Id = none ∧
    (nodeJoinLAN emptyLookup [c6Member] c6Role).addressToServer c6Addr = none := by
  decide

/-- C6 amended: with the tag the code actually reads (`grpc-port` instead of
`rpc-port`), the Join event adds a descriptor retrievable both by the ID
`n1` and by the computed address (member IP with port `7000`). -/
theorem joinEvent_adds_retrievable_entry :
    addrString c6Server = c6Addr ∧
    (nodeJoinLAN emptyLookup [c6MemberFixed] c6Role).idToServer c6Id = some c6Server ∧
    (nodeJoinLAN emptyLookup [c6MemberFixed] c6Role).addressToServer c6Addr =
      some c6Server := by
  decide

/-! ## Claim C9 -/

/-- C9: a Join event member whose role tag differs from the expected role
(or whose tags otherwise fail to parse) leaves the routing table exactly as
if the member were absent from the event: the surrounding members are still
processed and nothing about the offending member is recorded. -/
theorem joinEvent_skips_role_mismatch (st : ServerLookupState)
    (pre post : List Member) (m : Member) (role : String)
    (h : tagOf m roleKey ≠ role ∨ ∃ e, parseServerTags m role = .error e) :
    nodeJoinLAN st (pre ++ m :: post) role = nodeJoinLAN st (pre ++ post) role := by
  obtain ⟨e, he⟩ : ∃ e, parseServerTags m role = .error e := by
    rcases h with h | h
    · exact ⟨_, parseServerTags_role_mismatch h⟩
    · exact h
  simp only [nodeJoinLAN, List.foldl_append, List.foldl_cons, joinStep_error he]

/-- Witness: the C9 theorem at a concrete mismatching member surrounded by a
concrete well-formed member. -/
theorem joinEvent_skips_role_mismatch_witness :
    (tagOf c9Bad roleKey ≠ c6Role ∨ ∃ e, parseServerTags c9Bad c6Role = .error e) ∧
    nodeJoinLAN emptyLookup ([] ++ c9Bad :: [c6MemberFixed]) c6Role =
      nodeJoinLAN emptyLookup ([] ++ [c6MemberFixed]) c6Role :=
  ⟨Or.inl (by decide),
    joinEvent_skips_role_mismatch emptyLookup [] [c6MemberFixed] c9Bad c6Role
      (Or.inl (by decide))⟩

/-! ## SHA-256 (models the `crypto/sha256` library call made by
`implEncryptedSnapshotStore.newSessionKey`)

Bytes are `Nat` values below 256; 32-bit words are `Nat` values reduced
modulo `2 ^ 32` after every arithmetic step, exactly as the FIPS-180-4
algorithm Go implements. -/

def iterateN (f : α → α) : Nat → α → α
  | 0, a => a
  | n + 1, a => iterateN f n (f a)

def rotr32 (x n : Nat) : Nat :=
  ((x >>> n) ||| (x <<< (32 - n))) % 2 ^ 32

def shaCh (x y z : Nat) : Nat :=
  (x &&& y) ^^^ ((x ^^^ 0xffffffff) &&& z)

def shaMaj (x y z : Nat) : Nat :=
  (x &&& y) ^^^ (x &&& z) ^^^ (y &&& z)

def bsig0 (x : Nat) : Nat := rotr32 x 2 ^^^ rotr32 x 13 ^^^ rotr32 x 22

def bsig1 (x : Nat) : Nat := rotr32 x 6 ^^^ rotr32 x 11 ^^^ rotr32 x 25

def ssig0 (x : Nat) : Nat := rotr32 x 7 ^^^ rotr32 x 18 ^^^ (x >>> 3)

def ssig1 (x : Nat) : Nat := rotr32 x 17 ^^^ rotr32 x 19 ^^^ (x >>> 10)

def shaK : List Nat :=
  [1116352408, 1899447441, 3049323471, 3921009573, 961987163, 1508970993,
   2453635748, 2870763221, 3624381080, 310598401, 607225278, 1426881987,
   1925078388, 2162078206, 2614888103, 3248222580, 3835390401, 4022224774,
   264347078, 604807628, 770255983, 1249150122, 1555081692, 1996064986,
   2554220882, 2821834349, 2952996808, 3210313671, 3336571891, 3584528711,
   113926993, 338241895, 666307205, 773529912, 1294757372, 1396182291,
   1695183700, 1986661051, 2177026350, 2456956037, 2730485921, 2820302411,
   3259730800, 3345764771, 3516065817, 3600352804, 4094571909, 275423344,
   430227734, 506948616, 659060556, 883997877, 958139571, 1322822218,
   1537002063, 1747873779, 1955562222, 2024104815, 2227730452, 2361852424,
   2428436474, 2756734187, 3204031479, 3329325298]

def shaH0 : List Nat :=
  [1779033703, 3144134277, 1013904242, 2773480762,
   1359893119, 2600822924, 528734635, 1541459225]

/-- FIPS-180-4 padding: a `0x80` byte, zeros to 56 mod 64, then the bit
length as a 64-bit big-endian integer. -/
def sha256Pad (m : List Nat) : List Nat :=
  m ++ 0x80 :: List.replicate ((119 - m.length % 64) % 64) 0 ++
    natToBytes 8 ((8 * m.length) % 2 ^ 64)

/-- Extend the message schedule by one word. -/
def shaExtendStep (w : List Nat) : List Nat :=
  let i := w.length
  w ++ [(ssig1 (w.getD (i - 2) 0) + w.getD (i - 7) 0 +
         ssig0 (w.getD (i - 15) 0) + w.getD (i - 16) 0) % 2 ^ 32]

/-- The 64-word message schedule of one 64-byte block. -/
def shaSchedule (block : List Nat) : List Nat :=
  iterateN shaExtendStep 48
    ((List.range 16).map (fun i => bytesToNat ((block.drop (4 * i)).take 4)))

/-- One of the 64 compression rounds; the state is the list
`[a, b, c, d, e, f, g, h]`. -/
def shaRound (s : List Nat) (kw : Nat × Nat) : List Nat :=
  let t1 := (s.getD 7 0 + bsig1 (s.getD 4 0) +
             shaCh (s.getD 4 0) (s.getD 5 0) (s.getD 6 0) + kw.1 + kw.2) % 2 ^ 32
  let t2 := (bsig0 (s.getD 0 0) + shaMaj (s.getD 0 0) (s.getD 1 0) (s.getD 2 0)) % 2 ^ 32
  [(t1 + t2) % 2 ^ 32, s.getD 0 0, s.getD 1 0, s.getD 2 0,
   (s.getD 3 0 + t1) % 2 ^ 32, s.getD 4 0, s.getD 5 0, s.getD 6 0]

/-- Compress one 64-byte block into the running hash state. -/
def shaCompress (h : List Nat) (block : List Nat) : List Nat :=
  let st := (shaK.zip (shaSchedule block)).foldl shaRound h
  (List.range 8).map (fun i => (h.getD i 0 + st.getD i 0) % 2 ^ 32)

def chunksOfAux (n : Nat) : Nat → List Nat → List (List Nat)
  | 0, _ => []
  | _, [] => []
  | fuel + 1, l => l.take n :: chunksOfAux n fuel (l.drop n)

def chunks64 (l : List Nat) : List (List Nat) :=
  chunksOfAux 64 l.length l

/-- The eight 32-bit words of the SHA-256 digest of a byte sequence. -/
def sha256Words (msg : List Nat) : List Nat :=
  (chunks64 (sha256Pad msg)).foldl shaCompress shaH0

/-- SHA-256 digest as 32 bytes: models `h := sha256.New(); h.Write(msg);
h.Sum(nil)`. -/
def sha256Bytes (msg : List Nat) : List Nat :=
  ((sha256Words msg).map (natToBytes 4)).flatten

/-- Models the Go conversion `[]byte(s)` for the ASCII strings appearing in
this development (UTF-8 agrees with the code-point value on ASCII). -/
def strBytes (s : String) : List Nat :=
  s.data.map Char.toNat

theorem shaCompress_length (h block : List Nat) : (shaCompress h block).length = 8 := by
  simp [shaCompress]

theorem sha256Words_length (msg : List Nat) : (sha256Words msg).length = 8 := by
  have main : ∀ (bs : List (List Nat)) (h : List Nat), h.length = 8 →
      (bs.foldl shaCompress h).length = 8 := by
    intro bs
    induction bs with
    | nil => intro h hh; simpa using hh
    | cons b bs ih => intro h _; exact ih (shaCompress h b) (shaCompress_length h b)
  exact main _ shaH0 rfl

theorem sha256Bytes_length (msg : List Nat) : (sha256Bytes msg).length = 32 := by
  have hfun : (List.length ∘ natToBytes 4) = (fun _ : Nat => (4 : Nat)) :=
    funext (fun n => natToBytes_length 4 n)
  have hconst : ∀ (l : List Nat), (l.map (fun _ => (4 : Nat))).sum = 4 * l.length := by
    intro l
    induction l with
    | nil => simp
    | cons a t ih => simp only [List.map_cons, List.sum_cons, ih, List.length_cons]; omega
  simp only [sha256Bytes, List.length_flatten, List.map_map, hfun, hconst,
    sha256Words_length]

/-! ## AES-256 in CTR mode (models the `crypto/aes` + `crypto/cipher`
library calls made by `StreamEncrypter`/`StreamDecrypter`)

The byte-level AES of FIPS-197: `sboxTable` is the S-box of FIPS-197
Figure 7 (row-major), and the block is kept as a flat 16-byte list in the
column-major input order AES prescribes.  The block cipher construction was
cross-checked against the FIPS-197 AES-128 and AES-256 example vectors
while this development was written. -/

def xtime (a : Nat) : Nat :=
  if a < 128 then 2 * a else (2 * a) ^^^ 0x11B

def sboxTable : List Nat :=
  [0x63, 0x7c, 0x77, 0x7b, 0xf2, 0x6b, 0x6f, 0xc5,
   0x30, 0x01, 0x67, 0x2b, 0xfe, 0xd7, 0xab, 0x76,
   0xca, 0x82, 0xc9, 0x7d, 0xfa, 0x59, 0x47, 0xf0,
   0xad, 0xd4, 0xa2, 0xaf, 0x9c, 0xa4, 0x72, 0xc0,
   0xb7, 0xfd, 0x93, 0x26, 0x36, 0x3f, 0xf7, 0xcc,
   0x34, 0xa5, 0xe5, 0xf1, 0x71, 0xd8, 0x31, 0x15,
   0x04, 0xc7, 0x23, 0xc3, 0x18, 0x96, 0x05, 0x9a,
   0x07, 0x12, 0x80, 0xe2, 0xeb, 0x27, 0xb2, 0x75,
   0x09, 0x83, 0x2c, 0x1a, 0x1b, 0x6e, 0x5a, 0xa0,
   0x52, 0x3b, 0xd6, 0xb3, 0x29, 0xe3, 0x2f, 0x84,
   0x53, 0xd1, 0x00, 0xed, 0x20, 0xfc, 0xb1, 0x5b,
   0x6a, 0xcb, 0xbe, 0x39, 0x4a, 0x4c, 0x58, 0xcf,
   0xd0, 0xef, 0xaa, 0xfb, 0x43, 0x4d, 0x33, 0x85,
   0x45, 0xf9, 0x02, 0x7f, 0x50, 0x3c, 0x9f, 0xa8,
   0x51, 0xa3, 0x40, 0x8f, 0x92, 0x9d, 0x38, 0xf5,
   0xbc, 0xb6, 0xda, 0x21, 0x10, 0xff, 0xf3, 0xd2,
   0xcd, 0x0c, 0x13, 0xec, 0x5f, 0x97, 0x44, 0x17,
   0xc4, 0xa7, 0x7e, 0x3d, 0x64, 0x5d, 0x19, 0x73,
   0x60, 0x81, 0x4f, 0xdc, 0x22, 0x2a, 0x90, 0x88,
   0x46, 0xee, 0xb8, 0x14, 0xde, 0x5e, 0x0b, 0xdb,
   0xe0, 0x32, 0x3a, 0x0a, 0x49, 0x06, 0x24, 0x5c,
   0xc2, 0xd3, 0xac, 0x62, 0x91, 0x95, 0xe4, 0x79,
   0xe7, 0xc8, 0x37, 0x6d, 0x8d, 0xd5, 0x4e, 0xa9,
   0x6c, 0x56, 0xf4, 0xea, 0x65, 0x7a, 0xae, 0x08,
   0xba, 0x78, 0x25, 0x2e, 0x1c, 0xa6, 0xb4, 0xc6,
   0xe8, 0xdd, 0x74, 0x1f, 0x4b, 0xbd, 0x8b, 0x8a,
   0x70, 0x3e, 0xb5, 0x66, 0x48, 0x03, 0xf6, 0x0e,
   0x61, 0x35, 0x57, 0xb9, 0x86, 0xc1, 0x1d, 0x9e,
   0xe1, 0xf8, 0x98, 0x11, 0x69, 0xd9, 0x8e, 0x94,
   0x9b, 0x1e, 0x87, 0xe9, 0xce, 0x55, 0x28, 0xdf,
   0x8c, 0xa1, 0x89, 0x0d, 0xbf, 0xe6, 0x42, 0x68,
   0x41, 0x99, 0x2d, 0x0f, 0xb0, 0x54, 0xbb, 0x16]

def sub (b : Nat) : Nat := sboxTable.getD b 0

def subWord (w : List Nat) : List Nat := w.map sub

def rotWord : List Nat → List Nat
  | [] => []
  | a :: rest => rest ++ [a]

def rconByte : Nat → Nat
  | 0 => 0
  | 1 => 1
  | n + 2 => xtime (rconByte (n + 1))

/-- One step of the FIPS-197 key expansion; `ws` holds the words produced so
far in reverse order (head is the most recent word). -/
def expandStep (nk : Nat) (ws : List (List Nat)) : List (List Nat) :=
  let i := ws.length
  let temp := ws.headD []
  let temp :=
    if i % nk = 0 then
      xorBytes (subWord (rotWord temp)) [rconByte (i / nk), 0, 0, 0]
    else if 6 < nk ∧ i % nk = 4 then subWord temp
    else temp
  xorBytes (ws.getD (nk - 1) []) temp :: ws

/-- FIPS-197 key expansion: `4 * (nr + 1)` four-byte round-key words. -/
def keyExpansion (key : List Nat) : List (List Nat) :=
  let nk := key.length / 4
  let nr := nk + 6
  let initWords := (List.range nk).map (fun i => (key.drop (4 * i)).take 4)
  (iterateN (expandStep nk) (4 * (nr + 1) - nk) initWords.reverse).reverse

/-- Round key `r` as 16 flat bytes. -/
def roundKey (ws : List (List Nat)) (r : Nat) : List Nat :=
  (((ws.drop (4 * r)).take 4)).flatten

/-- ShiftRows as the flat-index permutation it induces. -/
def shiftRows (s : List Nat) : List Nat :=
  [0, 5, 10, 15, 4, 9, 14, 3, 8, 13, 2, 7, 12, 1, 6, 11].map (fun i => s.getD i 0)

def mixCol (c : List Nat) : List Nat :=
  let a0 := c.getD 0 0
  let a1 := c.getD 1 0
  let a2 := c.getD 2 0
  let a3 := c.getD 3 0
  let g2 := fun x => xtime x
  let g3 := fun x => xtime x ^^^ x
  [g2 a0 ^^^ g3 a1 ^^^ a2 ^^^ a3,
   a0 ^^^ g2 a1 ^^^ g3 a2 ^^^ a3,
   a0 ^^^ a1 ^^^ g2 a2 ^^^ g3 a3,
   g3 a0 ^^^ a1 ^^^ a2 ^^^ g2 a3]

def mixColumns (s : List Nat) : List Nat :=
  (mixCol (s.take 4)) ++ (mixCol ((s.drop 4).take 4)) ++
    (mixCol ((s.drop 8).take 4)) ++ (mixCol (s.drop 12))

/-- AES block encryption (any FIPS-197 key size: 16, 24 or 32 bytes). -/
def aesEncryptBlock (key block : List Nat) : List Nat :=
  let ws := keyExpansion key
  let nr := key.length / 4 + 6
  let st0 := xorBytes block (roundKey ws 0)
  let stM := (List.range (nr - 1)).foldl
    (fun st r => xorBytes (mixColumns (shiftRows (st.map sub))) (roundKey ws (r + 1))) st0
  xorBytes (shiftRows (stM.map sub)) (roundKey ws nr)

/-- The CTR counter block `iv + k` (big-endian, wrapping at 2^128), as
`cipher.NewCTR` maintains it. -/
def counterAt (iv : List Nat) (k : Nat) : List Nat :=
  natToBytes 16 ((bytesToNat iv + k) % 2 ^ 128)

/-- Byte `i` of the CTR keystream: byte `i % 16` of the encryption of
counter block `i / 16`. -/
def ksByte (key iv : List Nat) (i : Nat) : Nat :=
  (aesEncryptBlock key (counterAt iv (i / 16))).getD (i % 16) 0

/-- The keystream slice covering stream positions `pos .. pos + len - 1`:
what `XORKeyStream` consumes for a `len`-byte buffer after `pos` bytes have
already been processed. -/
def ksRange (key iv : List Nat) (pos len : Nat) : List Nat :=
  (List.range len).map (fun j => ksByte key iv (pos + j))

theorem ksRange_length (key iv : List Nat) (pos len : Nat) :
    (ksRange key iv pos len).length = len := by
  simp [ksRange]

/-! ## Stream encrypter and decrypter (src/stream_encrypter.go) and the
encrypted snapshot store

The underlying snapshot sink is embedded as the list of bytes written to it
so far, the underlying snapshot source as the list of bytes not yet read.
The `rand.Read` of the IV is a parameter.  `cipher.NewCTR` keeps a stream
position; `pos` carries it here. -/

/-- Models the key-size check of `aes.NewCipher`. -/
def validKeySize (key : List Nat) : Bool :=
  key.length == 16 || key.length == 24 || key.length == 32

/-- State of `implStreamEncrypter` plus the accumulated sink contents. -/
structure EncrypterState where
  key : List Nat
  iv : List Nat
  pos : Nat
  sinkData : List Nat
deriving DecidableEq

/-- Models `StreamEncrypter`: build the AES cipher (rejecting bad key
sizes), generate the IV (here a parameter), write the IV to the sink and
wrap the sink. -/
def streamEncrypterInit (sessionKey iv sinkData : List Nat) :
    Except String EncrypterState :=
  if validKeySize sessionKey then
    .ok { key := sessionKey, iv := iv, pos := 0, sinkData := sinkData ++ iv }
  else
    .error "invalid key size"

/-- Models `implStreamEncrypter.Write`: XOR the buffer in place with the
next `p.length` keystream bytes, hand the mutated buffer to the sink;
returns the new state and the mutated buffer. -/
def encWrite (st : EncrypterState) (p : List Nat) : EncrypterState × List Nat :=
  let c := xorBytes p (ksRange st.key st.iv st.pos p.length)
  ({ st with pos := st.pos + p.length, sinkData := st.sinkData ++ c }, c)

/-- A sequence of `Write` calls. -/
def encWriteAll (st : EncrypterState) (chunks : List (List Nat)) : EncrypterState :=
  chunks.foldl (fun s p => (encWrite s p).1) st

/-- State of `implStreamDecrypter` over a list-backed source. -/
structure DecrypterState where
  key : List Nat
  iv : List Nat
  pos : Nat
  source : List Nat
deriving DecidableEq

/-- Models `StreamDecrypter`: build the cipher, then read exactly one block
(16 bytes) from the source as the IV, failing when fewer are available. -/
def streamDecrypterInit (sessionKey source : List Nat) :
    Except String DecrypterState :=
  if validKeySize sessionKey then
    if source.length < 16 then .error "unexpected EOF while reading IV"
    else .ok { key := sessionKey, iv := source.take 16, pos := 0, source := source.drop 16 }
  else
    .error "invalid key size"

/-- Models one `implStreamDecrypter.Read` with a `k`-byte buffer against the
list-backed source: the source fills the buffer with `min k remaining`
bytes; a positive count is XORed in place with the keystream and returned,
a zero count returns EOF (the empty list). -/
def decRead (st : DecrypterState) (k : Nat) : DecrypterState × List Nat :=
  let n := min k st.source.length
  if n = 0 then (st, [])
  else
    ({ st with pos := st.pos + n, source := st.source.drop n },
      xorBytes (st.source.take n) (ksRange st.key st.iv st.pos n))

/-- Models `implEncryptedSnapshotStore.newSessionKey`: the receiver holds
the shared token; despite its `index` and `term` parameters, the function
hashes the token bytes alone (`h.Write([]byte(t.token)); h.Sum(nil)`). -/
def newSessionKey (token : String) (index term : Nat) : List Nat :=
  sha256Bytes (strBytes token)

/-- Models `implEncryptedSnapshotStore.Create` over an empty delegate sink,
followed by one encrypting `Write` per chunk: the resulting delegate sink
contents (`Close`, `ID` and `Cancel` are pure delegations). -/
def encCreateWrite (token : String) (index term : Nat) (iv : List Nat)
    (chunks : List (List Nat)) : Except String (List Nat) :=
  match streamEncrypterInit (newSessionKey token index term) iv [] with
  | .error e => .error e
  | .ok st => .ok (encWriteAll st chunks).sinkData

/-- Models `implEncryptedSnapshotStore.Open` on a delegate source holding
`stored` (the session key is derived from the stored metadata's index and
term), followed by a single decrypting `Read` with a `k`-byte buffer. -/
def openReadOnce (token : String) (index term : Nat) (stored : List Nat) (k : Nat) :
    Except String (List Nat) :=
  match streamDecrypterInit (newSessionKey token index term) stored with
  | .error e => .error e
  | .ok st => .ok (decRead st k).2

/-! ### Keystream and cipher algebra -/

theorem ksRange_add (key iv : List Nat) (pos a b : Nat) :
    ksRange key iv pos (a + b) = ksRange key iv pos a ++ ksRange key iv (pos + a) b := by
  simp only [ksRange, List.range_add, List.map_append, List.map_map]
  refine congrArg₂ (· ++ ·) rfl (List.map_congr_left ?_)
  intro j _
  simp [Function.comp]
  ring_nf

theorem xorBytes_append (p q x y : List Nat) (h : p.length = x.length) :
    xorBytes (p ++ q) (x ++ y) = xorBytes p x ++ xorBytes q y :=
  List.zipWith_append _ p q x y h

theorem encWriteAll_spec : ∀ (chunks : List (List Nat)) (st : EncrypterState),
    encWriteAll st chunks =
      { st with
          pos := st.pos + chunks.flatten.length
          sinkData := st.sinkData ++
            xorBytes chunks.flatten (ksRange st.key st.iv st.pos chunks.flatten.length) }
  | [], st => by simp [encWriteAll, ksRange, xorBytes]
  | p :: rest, st => by
      have ih := encWriteAll_spec rest
        { st with
            pos := st.pos + p.length
            sinkData := st.sinkData ++ xorBytes p (ksRange st.key st.iv st.pos p.length) }
      simp only [encWriteAll, List.foldl_cons] at ih ⊢
      rw [show (encWrite st p).1 =
        { st with
            pos := st.pos + p.length
            sinkData := st.sinkData ++ xorBytes p (ksRange st.key st.iv st.pos p.length) }
        from rfl]
      rw [ih]
      simp only [List.flatten_cons, List.length_append, ksRange_add]
      rw [xorBytes_append p rest.flatten _ _ (by rw [ksRange_length])]
      simp [List.append_assoc, Nat.add_assoc]

theorem decRead_full (st : DecrypterState) (k : Nat) (hk : st.source.length ≤ k) :
    (decRead st k).2 = xorBytes st.source (ksRange st.key st.iv st.pos st.source.length) := by
  rcases Nat.eq_zero_or_pos st.source.length with h0 | hpos
  · have hsrc : st.source = [] := List.length_eq_zero.mp h0
    simp [decRead, hsrc, xorBytes]
  · have hn : min k st.source.length = st.source.length := Nat.min_eq_right hk
    have hne : ¬ min k st.source.length = 0 := by omega
    have hsrc : ¬ st.source = [] := by
      intro h
      rw [h] at hpos
      simp at hpos
    simp [decRead, hn, hne, hsrc, List.take_of_length_le (Nat.le_refl _)]

theorem xorBytes_ne_cancel_iff (d k1 k2 : List Nat)
    (h1 : d.length = k1.length) (h2 : d.length = k2.length) :
    xorBytes (xorBytes d k1) k2 = d ↔ k1 = k2 := by
  induction d generalizing k1 k2 with
  | nil =>
    cases k1 with
    | nil =>
      cases k2 with
      | nil => simp [xorBytes]
      | cons b t => simp at h2
    | cons a t => simp at h1
  | cons x d ih =>
    cases k1 with
    | nil => simp at h1
    | cons a t1 =>
      cases k2 with
      | nil => simp at h2
      | cons b t2 =>
        have hcons : ∀ (y : Nat) (e : List Nat) (z : Nat) (f : List Nat),
            xorBytes (y :: e) (z :: f) = (y ^^^ z) :: xorBytes e f := fun _ _ _ _ => rfl
        simp only [hcons, List.cons.injEq]
        have h1' : d.length = t1.length := by simpa using h1
        have h2' : d.length = t2.length := by simpa using h2
        rw [ih t1 t2 h1' h2']
        constructor
        · rintro ⟨hx, ht⟩
          refine ⟨?_, ht⟩
          have hx2 : x ^^^ (a ^^^ b) = x ^^^ 0 := by
            rw [Nat.xor_zero, ← Nat.xor_assoc]
            exact hx
          have := congrArg (fun t => x ^^^ t) hx2
          simpa [← Nat.xor_assoc, Nat.xor_self, Nat.zero_xor, Nat.xor_zero] using this
        · rintro ⟨hx, ht⟩
          subst hx
          refine ⟨?_, ht⟩
          rw [Nat.xor_assoc, Nat.xor_self, Nat.xor_zero]

theorem validKeySize_sessionKey (token : String) (index term : Nat) :
    validKeySize (newSessionKey token index term) = true := by
  simp [validKeySize, newSessionKey, sha256Bytes_length]

/-- What `Create` followed by any chunked write sequence leaves in the
delegate sink: the IV followed by the plaintext XORed with the keystream. -/
theorem encCreateWrite_spec (token : String) (index term : Nat)
    (iv : List Nat) (chunks : List (List Nat)) :
    encCreateWrite token index term iv chunks =
      .ok (iv ++ xorBytes chunks.flatten
        (ksRange (newSessionKey token index term) iv 0 chunks.flatten.length)) := by
  unfold encCreateWrite streamEncrypterInit
  rw [validKeySize_sessionKey]
  simp only [if_true, encWriteAll_spec, List.nil_append]

/-- What `Open` followed by one full-buffer read returns on a well-formed
stored stream: the stored payload XORed with the keystream regenerated from
the recovered IV. -/
theorem openReadOnce_spec (token : String) (index term : Nat)
    (iv cipherData : List Nat) (k : Nat)
    (hiv : iv.length = 16) (hk : cipherData.length ≤ k) :
    openReadOnce token index term (iv ++ cipherData) k =
      .ok (xorBytes cipherData
        (ksRange (newSessionKey token index term) iv 0 cipherData.length)) := by
  unfold openReadOnce streamDecrypterInit
  rw [validKeySize_sessionKey]
  have hlen : ¬ (iv ++ cipherData).length < 16 := by
    simp [hiv]
  rw [if_pos rfl, if_neg hlen]
  have htake : (iv ++ cipherData).take 16 = iv := by
    rw [← hiv]
    exact List.take_left iv cipherData
  have hdrop : (iv ++ cipherData).drop 16 = cipherData := by
    rw [← hiv]
    exact List.drop_left iv cipherData
  simp only [htake, hdrop]
  rw [decRead_full _ k (by simpa using hk)]

/-! ## Claim C5 -/

def tok123 : String := "123"

def tok124 : String := "124"

/-- C5 counterexample: two different (index, term) pairs under the same
token yield the same session key, so the key is not a hash of the triple
(it does not depend on the snapshot index or term at all). -/
theorem newSessionKey_ignores_index_term_counterexample :
    newSessionKey tok123 100 1 = newSessionKey tok123 200 2 ∧
    ¬ (((100 : Nat), (1 : Nat)) = ((200 : Nat), (2 : Nat))) :=
  ⟨rfl, by decide⟩

/-- C5 amended: the per-snapshot session key is a deterministic one-way
hash (SHA-256) of the shared token alone; it is independent of the snapshot
index and term, hence in particular still deterministic, so `Open` can
reproduce the key `Create` used. -/
theorem newSessionKey_hash_of_token_only (token : String) (i t i2 t2 : Nat) :
    newSessionKey token i t = sha256Bytes (strBytes token) ∧
    newSessionKey token i t = newSessionKey token i2 t2 :=
  ⟨rfl, rfl⟩

/-! ## Claim C7 -/

def cex7IV : List Nat := List.range 16

/-- C7 counterexample: for the empty byte sequence, opening with a
different token reproduces the original (empty) plaintext exactly, not
different bytes: the claim's wrong-token clause fails on the empty
sequence. -/
theorem wrongToken_empty_same_output_counterexample :
    encCreateWrite tok123 100 1 cex7IV [] = .ok cex7IV ∧
    openReadOnce tok124 100 1 cex7IV 512 = .ok ([] : List Nat) := by
  constructor
  · rw [encCreateWrite_spec]
    rfl
  · have h : cex7IV ++ ([] : List Nat) = cex7IV := by simp
    rw [← h, openReadOnce_spec tok124 100 1 cex7IV [] 512 (by rfl) (by simp)]
    rfl

/-- C7 amended: writing any chunked byte sequence through the encrypt sink
and reading it back through the decrypt source with the same token (and the
same index/term) reproduces the bytes exactly; opening with a different
token is not an error either — it returns the original XORed with the two
keystreams' difference, which differs from the original exactly when the
two derived keystreams differ on the sequence's length (in particular it
coincides for the empty sequence). -/
theorem snapshotCipher_roundTrip (token token2 : String) (index term : Nat)
    (iv : List Nat) (chunks : List (List Nat)) (k : Nat)
    (hiv : iv.length = 16) (hk : chunks.flatten.length ≤ k) :
    ∃ stored,
      encCreateWrite token index term iv chunks = .ok stored ∧
      openReadOnce token index term stored k = .ok chunks.flatten ∧
      openReadOnce token2 index term stored k =
        .ok (xorBytes
          (xorBytes chunks.flatten
            (ksRange (newSessionKey token index term) iv 0 chunks.flatten.length))
          (ksRange (newSessionKey token2 index term) iv 0 chunks.flatten.length)) ∧
      (openReadOnce token2 index term stored k = .ok chunks.flatten ↔
        ksRange (newSessionKey token index term) iv 0 chunks.flatten.length =
          ksRange (newSessionKey token2 index term) iv 0 chunks.flatten.length) := by
  set data := chunks.flatten with hdata
  set ks1 := ksRange (newSessionKey token index term) iv 0 data.length with hks1
  set ks2 := ksRange (newSessionKey token2 index term) iv 0 data.length with hks2
  have hlen1 : data.length = ks1.length := by rw [hks1, ksRange_length]
  have hlen2 : data.length = ks2.length := by rw [hks2, ksRange_length]
  have hclen : (xorBytes data ks1).length = data.length := by
    rw [xorBytes_length, ← hlen1, Nat.min_self]
  refine ⟨iv ++ xorBytes data ks1, encCreateWrite_spec token index term iv chunks, ?_, ?_, ?_⟩
  · rw [openReadOnce_spec token index term iv (xorBytes data ks1) k hiv (hclen ▸ hk), hclen]
    rw [← hks1, xorBytes_xorBytes_cancel data ks1 hlen1]
  · rw [openReadOnce_spec token2 index term iv (xorBytes data ks1) k hiv (hclen ▸ hk), hclen]
  · rw [openReadOnce_spec token2 index term iv (xorBytes data ks1) k hiv (hclen ▸ hk), hclen]
    rw [← hks2]
    constructor
    · intro h
      have hout : xorBytes (xorBytes data ks1) ks2 = data := by
        exact Except.ok.inj h
      exact (xorBytes_ne_cancel_iff data ks1 ks2 hlen1 hlen2).mp hout
    · intro h
      rw [show ks2 = ks1 from h.symm, xorBytes_xorBytes_cancel data ks1 hlen1]

def helloStr : String := "Hello World!"

def helloBytes : List Nat := strBytes helloStr

/-- Witness: the amended C7 theorem at concrete tokens, IV and payload. -/
theorem snapshotCipher_roundTrip_witness :
    cex7IV.length = 16 ∧ ([strBytes helloStr] : List (List Nat)).flatten.length ≤ 64 ∧
    (∃ stored,
      encCreateWrite tok123 100 1 cex7IV [strBytes helloStr] = .ok stored ∧
      openReadOnce tok123 100 1 stored 64 = .ok ([strBytes helloStr] : List (List Nat)).flatten ∧
      openReadOnce tok124 100 1 stored 64 =
        .ok (xorBytes
          (xorBytes ([strBytes helloStr] : List (List Nat)).flatten
            (ksRange (newSessionKey tok123 100 1) cex7IV 0
              ([strBytes helloStr] : List (List Nat)).flatten.length))
          (ksRange (newSessionKey tok124 100 1) cex7IV 0
            ([strBytes helloStr] : List (List Nat)).flatten.length)) ∧
      (openReadOnce tok124 100 1 stored 64 = .ok ([strBytes helloStr] : List (List Nat)).flatten ↔
        ksRange (newSessionKey tok123 100 1) cex7IV 0
            ([strBytes helloStr] : List (List Nat)).flatten.length =
          ksRange (newSessionKey tok124 100 1) cex7IV 0
            ([strBytes helloStr] : List (List Nat)).flatten.length)) :=
  ⟨rfl, by decide,
    snapshotCipher_roundTrip tok123 tok124 100 1 cex7IV [strBytes helloStr] 64
      rfl (by decide)⟩

/-! ## Claim C10 -/

/-- The error component of a Go `io.Reader` result. -/
inductive IOErr
  | eof
  | other (msg : String)
deriving DecidableEq

/-- Models one `implStreamDecrypter.Read` against an arbitrary underlying
`source.Read` outcome `(bytes, err)` (`none` is a nil error): a positive
byte count is XORed in place with the keystream and the underlying error is
propagated unchanged; a zero byte count returns `(0, io.EOF)` regardless of
`err`.  Returns the buffer/error pair and the advanced stream position. -/
def decReadStep (key iv : List Nat) (pos : Nat) (res : List Nat × Option IOErr) :
    (List Nat × Option IOErr) × Nat :=
  if res.1.length > 0 then
    ((xorBytes res.1 (ksRange key iv pos res.1.length), res.2), pos + res.1.length)
  else (([], some .eof), pos)

/-- C10: whenever the wrapped source's `Read` returns zero bytes, the
decrypter's `Read` reports `(0, io.EOF)` whatever the underlying error was
(nil, EOF, or any other error — the latter is discarded). -/
theorem decrypterRead_zero_bytes_is_eof (key iv : List Nat) (pos : Nat)
    (err : Option IOErr) :
    decReadStep key iv pos ([], err) = (([], some .eof), pos) := rfl

/-! ## Claim C8 -/

def c8IV : List Nat := List.range 16

/-- The mutated buffer after the encrypt path's `Write` of the
`"Hello World!"` bytes (token `"123"` as in the repository's test, with the
concrete IV `c8IV`). -/
def cipherHello : List Nat :=
  xorBytes helloBytes (ksRange (newSessionKey tok123 100 1) c8IV 0 helloBytes.length)

set_option maxRecDepth 65536 in
/-- C8: `Write` transforms the caller's buffer in place — the bytes handed
onward are the XOR transform of the caller's buffer, and for the
`"Hello World!"` buffer the transformed contents differ from the original —
while reading back through the decrypt path returns exactly
`"Hello World!"`. -/
theorem cipher_inplace_hello :
    (∀ st : EncrypterState, (encWrite st helloBytes).2 =
        xorBytes helloBytes (ksRange st.key st.iv st.pos helloBytes.length)) ∧
    cipherHello ≠ helloBytes ∧
    encCreateWrite tok123 100 1 c8IV [helloBytes] = .ok (c8IV ++ cipherHello) ∧
    openReadOnce tok123 100 1 (c8IV ++ cipherHello) helloBytes.length = .ok helloBytes := by
  have hflat : ([helloBytes] : List (List Nat)).flatten = helloBytes := by
    simp
  have hlen : helloBytes.length =
      (ksRange (newSessionKey tok123 100 1) c8IV 0 helloBytes.length).length := by
    rw [ksRange_length]
  have hclen : cipherHello.length = helloBytes.length := by
    rw [cipherHello, xorBytes_length, ← hlen, Nat.min_self]
  refine ⟨fun st => rfl, by decide, ?_, ?_⟩
  · rw [encCreateWrite_spec, hflat, cipherHello]
  · rw [openReadOnce_spec tok123 100 1 c8IV cipherHello helloBytes.length rfl
      (le_of_eq hclen), hclen, cipherHello,
      xorBytes_xorBytes_cancel helloBytes _ hlen]

/-! ## Outbound client connection pool (`implRaftClientPool.GetAPIConn`,
src/raft_client_pool.go)

The pool is embedded for one fixed peer address as a small-step system.
The `sync.Map` operations `Load`, `LoadOrStore` and `Store` are each
atomic; the model makes each of them — plus dial completion and the
channel-wait wake-up — one atomic step, and a scheduler word chooses which
of two concurrent `GetAPIConn` calls steps.  Wait channels are numbered by
creation order; a channel id joins `closedChans` when the call that created
its `connectingClient` returns (the `defer close(stub.waitCh)`).  A
goroutine that loses the `LoadOrStore` race waits on the winner's channel;
its own unstored stub can never be waited on by anyone, so its closure is
not tracked.  `doConnect` is one `dialing` step whose outcome the `dialRes`
oracle gives per dial attempt (endpoint derivation cannot fail once the
port offset exists, and no health-check goroutine runs when
`raft-server.raft-service-name` is empty, as in the scenarios below).  The
`Store` in the branch where `LoadOrStore` loads a value of neither entry
type is unreachable (only the two entry types are ever stored) and is not
modelled. -/

/-- A value stored in the `clients` map for the address. -/
inductive PoolEntry
  | stub (ch : Nat)
  | conn (c : Nat)
deriving DecidableEq

/-- The control state of one `GetAPIConn` call. -/
inductive GoState
  | tryAgain
  | waitingOn (ch : Nat)
  | loadOrStore (my : Nat)
  | dialing (my : Nat) (k : Nat)
  | done (r : Except Unit Nat)

/-- The shared state: the map entry for the address, the closed wait
channels, the next fresh channel id, and how many dials have started. -/
structure PoolState where
  entry : Option PoolEntry
  closedChans : List Nat
  nextChan : Nat
  dialCount : Nat
deriving DecidableEq

/-- One atomic step of one `GetAPIConn` call: the `Load` at `tryAgain`, the
blocking channel receive, the `LoadOrStore`, or the dial with its
`Store`-on-success / plain-return-on-failure. -/
def goStep (dialRes : Nat → Except Unit Nat) (sh : PoolState) (g : GoState) :
    PoolState × GoState :=
  match g with
  | .tryAgain =>
      match sh.entry with
      | some (.conn c) => (sh, .done (.ok c))
      | some (.stub ch) => (sh, .waitingOn ch)
      | none => ({ sh with nextChan := sh.nextChan + 1 }, .loadOrStore sh.nextChan)
  | .waitingOn ch =>
      if ch ∈ sh.closedChans then (sh, .tryAgain) else (sh, .waitingOn ch)
  | .loadOrStore my =>
      match sh.entry with
      | some (.conn c) => ({ sh with closedChans := my :: sh.closedChans }, .done (.ok c))
      | some (.stub ch) => (sh, .waitingOn ch)
      | none =>
          ({ sh with entry := some (.stub my), dialCount := sh.dialCount + 1 },
            .dialing my sh.dialCount)
  | .dialing my k =>
      match dialRes k with
      | .ok c =>
          ({ sh with entry := some (.conn c), closedChans := my :: sh.closedChans },
            .done (.ok c))
      | .error e => ({ sh with closedChans := my :: sh.closedChans }, .done (.error e))
  | .done r => (sh, .done r)

/-- Two concurrent `GetAPIConn` calls over the shared state. -/
structure Sys where
  sh : PoolState
  g1 : GoState
  g2 : GoState

/-- Let the scheduled goroutine take one step. -/
def sysStep (dialRes : Nat → Except Unit Nat) (s : Sys) : Bool → Sys
  | true =>
      { s with sh := (goStep dialRes s.sh s.g1).1, g1 := (goStep dialRes s.sh s.g1).2 }
  | false =>
      { s with sh := (goStep dialRes s.sh s.g2).1, g2 := (goStep dialRes s.sh s.g2).2 }

/-- Run a schedule. -/
def runSched (dialRes : Nat → Except Unit Nat) (s : Sys) (sched : List Bool) : Sys :=
  sched.foldl (sysStep dialRes) s

/-- A dial oracle under which every dial attempt fails. -/
def failDial : Nat → Except Unit Nat := fun _ => .error ()

/-- Both calls at the entry label, empty shared state. -/
def sys0 : Sys :=
  { sh := { entry := none, closedChans := [], nextChan := 0, dialCount := 0 }
    g1 := .tryAgain, g2 := .tryAgain }

/-- The livelocked region the pool enters after a failed dial: the closed
`connectingClient` placeholder is still the map entry, the first call has
returned the dial error, and the second call is stuck shuttling between
re-checking the entry and the already-closed channel. -/
def PoolStuck (s : Sys) : Prop :=
  s.sh.entry = some (.stub 0) ∧ 0 ∈ s.sh.closedChans ∧ s.sh.dialCount = 1 ∧
  s.g1 = .done (.error ()) ∧ (s.g2 = .tryAgain ∨ s.g2 = .waitingOn 0)

theorem poolStuck_step (s : Sys) (w : Bool) (h : PoolStuck s) :
    PoolStuck (sysStep failDial s w) := by
  obtain ⟨hentry, hclosed, hdial, hg1, hg2⟩ := h
  cases w
  case true =>
    simp only [sysStep, hg1, goStep]
    exact ⟨hentry, hclosed, hdial, rfl, hg2⟩
  case false =>
    rcases hg2 with hg2 | hg2
    · simp only [sysStep, hg2, goStep, hentry]
      exact ⟨hentry, hclosed, hdial, hg1, Or.inr rfl⟩
    · simp only [sysStep, hg2, goStep, if_pos hclosed]
      exact ⟨hentry, hclosed, hdial, hg1, Or.inl rfl⟩

theorem poolStuck_run (s : Sys) (h : PoolStuck s) :
    ∀ sched : List Bool, PoolStuck (runSched failDial s sched) := by
  intro sched
  induction sched generalizing s with
  | nil => exact h
  | cons w rest ih => exact ih (sysStep failDial s w) (poolStuck_step s w h)

/-! ## Claim C1 -/

/-- The interleaving: the first call wins the race and starts dialing, the
second call finds the placeholder and blocks on its channel, then the dial
fails. -/
def c1Sched : List Bool := [true, true, false, true]

/-- C1 (bug evidence): with both calls racing for the same address and the
dial failing, the winner returns the dial error, but the waiting caller
never observes any outcome — under every continuation schedule it never
returns (neither the error nor a connection), because the failed attempt's
placeholder is never removed from the map.  The claim's failure clause
(all waiters receive the same error) is false of the code. -/
theorem waiter_never_observes_dial_failure :
    (runSched failDial sys0 c1Sched).g1 = .done (.error ()) ∧
    (runSched failDial sys0 c1Sched).g2 = .waitingOn 0 ∧
    ∀ (sched : List Bool) (r : Except Unit Nat),
      (runSched failDial (runSched failDial sys0 c1Sched) sched).g2 ≠ .done r := by
  refine ⟨rfl, rfl, ?_⟩
  intro sched r
  have hstuck : PoolStuck (runSched failDial sys0 c1Sched) :=
    ⟨rfl, by simp [runSched, sysStep, goStep, sys0, c1Sched, failDial], rfl, rfl,
      Or.inr rfl⟩
  have h := poolStuck_run _ hstuck sched
  rcases h.2.2.2.2 with hg | hg <;> rw [hg] <;> intro hc <;> exact GoState.noConfusion hc

/-! ## Claim C2 -/

/-- The first call runs alone to completion: it installs the placeholder,
dials, fails, and returns the error. -/
def c2Sched : List Bool := [true, true, true]

/-- C2 (bug evidence): the dial error is returned to the first caller and
the failed attempt is indeed not cached as an established entry — but the
`connectingClient` placeholder is left in the map, so a subsequent call for
the same address never performs a fresh dial (the dial count stays at one
forever) and never returns: it blocks indefinitely re-checking the dead
placeholder, contrary to the claim. -/
theorem subsequent_call_after_failed_dial_strands :
    (runSched failDial sys0 c2Sched).g1 = .done (.error ()) ∧
    (∀ c, (runSched failDial sys0 c2Sched).sh.entry ≠ some (.conn c)) ∧
    ∀ sched : List Bool,
      (runSched failDial (runSched failDial sys0 c2Sched) sched).sh.dialCount = 1 ∧
      ∀ r : Except Unit Nat,
        (runSched failDial (runSched failDial sys0 c2Sched) sched).g2 ≠ .done r := by
  refine ⟨rfl, ?_, ?_⟩
  · intro c hc
    have : some (PoolEntry.stub 0) = some (PoolEntry.conn c) := hc
    simp at this
  · intro sched
    have hstuck : PoolStuck (runSched failDial sys0 c2Sched) :=
      ⟨rfl, by simp [runSched, sysStep, goStep, sys0, c2Sched, failDial], rfl, rfl,
        Or.inl rfl⟩
    have h := poolStuck_run _ hstuck sched
    refine ⟨h.2.2.1, ?_⟩
    intro r
    rcases h.2.2.2.2 with hg | hg <;> rw [hg] <;> intro hc <;> exact GoState.noConfusion hc

end Raftmod
